import Mathlib

/-!
Verification development for the `datapoint` Go client (Met Office DataPoint).

The definitions below are a shallow embedding of the repository's source:

  * `contants.go` — the known-parameter constants;
  * `val.go`      — site list / forecast conversion (`siteList`, `convertLocation`,
                    `FiveDayForecast`, `knownIntParams`);
  * `txt.go`      — UK-extremes and regional-forecast conversion, and the
                    transport helper `fetch`.

Go standard-library functions used by the source (`strconv.ParseInt`,
`strconv.ParseFloat`, `time.Parse`, `url.QueryEscape`) are modelled from their
documented behaviour.  Machine integers are modelled as `Int` with explicit
range checks, floating-point wire values as exact rationals (`Rat`), and
`time.Time` instants as Unix seconds (`Int`).  Go's `(value, error)` returns
are modelled as `Except String` (or as an explicit `Option × Option` pair
where the tri-state result itself is under scrutiny).
-/

namespace Datapoint

/-- Numeric value of a decimal digit character. -/
def digitVal (c : Char) : Nat := c.toNat - ('0').toNat

/-- Decimal value of a list of digit characters. -/
def natOfDigits (l : List Char) : Nat :=
  l.foldl (fun a c => a * 10 + digitVal c) 0

/-- Model of Go `strconv.ParseInt(s, 10, bitSize)`: an optional sign followed by
one or more decimal digits, rejected when the value falls outside the signed
`bitSize`-bit range.  (Go also returns the clamped value together with a
non-nil error on range overflow; every caller in this repository takes the
error path, so the model returns `none` there.) -/
def goParseInt (bitSize : Nat) (s : String) : Option Int :=
  let l := s.toList
  let signed : Bool × List Char :=
    match l with
    | '+' :: r => (false, r)
    | '-' :: r => (true, r)
    | _ => (false, l)
  let neg := signed.1
  let l1 := signed.2
  if l1.isEmpty || l1.any (fun c => !c.isDigit) then none
  else
    let n : Int := (natOfDigits l1 : Nat)
    let v := if neg then -n else n
    let bound : Int := ((2 ^ (bitSize - 1) : Nat) : Int)
    if v < -bound || bound - 1 < v then none
    else some v

/-- Split a character list into its maximal leading run of decimal digits and
the remainder. -/
def splitDigits : List Char → List Char × List Char
  | [] => ([], [])
  | c :: cs =>
    if c.isDigit then
      let r := splitDigits cs
      (c :: r.1, r.2)
    else ([], c :: cs)

/-- Mantissa of a decimal floating-point literal: digits with an optional
fractional part (`12`, `12.`, `12.5`, `.5`).  Returns the combined digit
value, the number of fractional digits, and the unconsumed remainder. -/
def parseMantissa (l : List Char) : Option (Nat × Nat × List Char) :=
  let ip := splitDigits l
  match ip.2 with
  | '.' :: r2 =>
    let fp := splitDigits r2
    if ip.1.isEmpty && fp.1.isEmpty then none
    else some (natOfDigits (ip.1 ++ fp.1), fp.1.length, fp.2)
  | r1 => if ip.1.isEmpty then none else some (natOfDigits ip.1, 0, r1)

/-- Model of Go `strconv.ParseFloat(s, 64)` restricted to plain decimal forms:
an optional sign, a decimal mantissa, and an optional `e`/`E` exponent.  The
exact decimal value is recorded as a rational; binary rounding, and Go's
`inf`/`NaN`/hexadecimal/underscore forms (none of which occur anywhere in this
development), are not modelled. -/
def goParseFloat (s : String) : Option Rat :=
  let l := s.toList
  let signed : Bool × List Char :=
    match l with
    | '+' :: r => (false, r)
    | '-' :: r => (true, r)
    | _ => (false, l)
  let neg := signed.1
  match parseMantissa signed.2 with
  | none => none
  | some (m, f, rest) =>
    let num : Int := if neg then -(m : Int) else (m : Int)
    match rest with
    | [] => some (mkRat num (10 ^ f))
    | c :: r2 =>
      if c == 'e' || c == 'E' then
        let esigned : Bool × List Char :=
          match r2 with
          | '+' :: t => (false, t)
          | '-' :: t => (true, t)
          | _ => (false, r2)
        let ds := splitDigits esigned.2
        if ds.1.isEmpty || !ds.2.isEmpty then none
        else
          let e := natOfDigits ds.1
          if esigned.1 then some (mkRat num (10 ^ f * 10 ^ e))
          else some (mkRat (num * (10 ^ e : Nat)) (10 ^ f))
      else none

/-! ### Model of Go `time.Parse`

Go's `time.Parse(layout, value)` scans `layout` for reference-time chunks
(`"2006"` year, `"01"` month, `"15"` hour, ...), treating every other
character as a literal, and reads the corresponding component of `value`
after matching each literal prefix.  The chunk analysis depends only on the
layout, so it is modelled as a separate pass (`layoutChunks`) followed by an
interpreter over the value (`runChunks`); Go interleaves the two, with the
same result.  The named month/day chunks (`Jan`, `Monday`, ...), am/pm
markers, padded-day and day-of-year chunks (`_2`, `002`), and fractional
second chunks (`.000`) are not modelled: no layout string occurring in this
repository, nor any layout used in a theorem below, contains them. -/

/-- The reference-time chunks of a Go time layout that this model covers. -/
inductive StdChunk where
  | longYear        -- "2006"
  | yearTwo         -- "06"
  | zeroMonth       -- "01"
  | numMonth        -- "1"
  | zeroDay         -- "02"
  | day             -- "2"
  | hour            -- "15"
  | hour12          -- "3"
  | zeroHour12      -- "03"
  | minute          -- "4"
  | zeroMinute      -- "04"
  | second          -- "5"
  | zeroSecond      -- "05"
  | iso8601TZ       -- "Z0700"
  | iso8601ColonTZ  -- "Z07:00"
  | numTZ           -- "-0700"
  | numColonTZ      -- "-07:00"
  | numShortTZ      -- "-07"
deriving Repr, DecidableEq

/-- One step of Go's `nextStdChunk` on a nonempty layout whose head is `c`:
either a recognised chunk with the unconsumed suffix, or `none` when `c` is a
literal character. -/
def headChunk (c : Char) (rest : List Char) : Option (StdChunk × List Char) :=
  if c == '2' then
    if ('2' :: rest).take 4 == ['2', '0', '0', '6'] then some (.longYear, rest.drop 3)
    else some (.day, rest)
  else if c == '1' then
    if rest.take 1 == ['5'] then some (.hour, rest.drop 1)
    else some (.numMonth, rest)
  else if c == '0' then
    match rest with
    | d :: rest2 =>
      if d == '1' then some (.zeroMonth, rest2)
      else if d == '2' then some (.zeroDay, rest2)
      else if d == '3' then some (.zeroHour12, rest2)
      else if d == '4' then some (.zeroMinute, rest2)
      else if d == '5' then some (.zeroSecond, rest2)
      else if d == '6' then some (.yearTwo, rest2)
      else none
    | [] => none
  else if c == '3' then some (.hour12, rest)
  else if c == '4' then some (.minute, rest)
  else if c == '5' then some (.second, rest)
  else if c == 'Z' then
    if ('Z' :: rest).take 5 == ['Z', '0', '7', '0', '0'] then some (.iso8601TZ, rest.drop 4)
    else if ('Z' :: rest).take 6 == ['Z', '0', '7', ':', '0', '0'] then
      some (.iso8601ColonTZ, rest.drop 5)
    else none
  else if c == '-' then
    if ('-' :: rest).take 5 == ['-', '0', '7', '0', '0'] then some (.numTZ, rest.drop 4)
    else if ('-' :: rest).take 6 == ['-', '0', '7', ':', '0', '0'] then
      some (.numColonTZ, rest.drop 5)
    else if ('-' :: rest).take 3 == ['-', '0', '7'] then some (.numShortTZ, rest.drop 2)
    else none
  else none

/-- Fuelled chunk analysis of a Go time layout: the list of (literal prefix,
chunk) pairs followed by the trailing literal.  One unit of fuel is spent per
layout character, so `layout.length` fuel always suffices. -/
def layoutChunksF : Nat → List Char → List (List Char × StdChunk) × List Char
  | 0, l => ([], l)
  | _ + 1, [] => ([], [])
  | fuel + 1, c :: rest =>
    match headChunk c rest with
    | some (std, suffix) =>
      let r := layoutChunksF fuel suffix
      (([], std) :: r.1, r.2)
    | none =>
      let r := layoutChunksF fuel rest
      match r.1 with
      | [] => ([], c :: r.2)
      | (p, s) :: cs => ((c :: p, s) :: cs, r.2)

/-- Chunk analysis of a Go time layout. -/
def layoutChunks (l : List Char) : List (List Char × StdChunk) × List Char :=
  layoutChunksF l.length l

/-- The components read while parsing a time value, before validation.  Go
defaults an absent month and day to 1; a layout with no zone information
yields UTC, modelled as `zoneOffset = none`. -/
structure GoTime where
  year : Int
  month : Int
  day : Int
  hour : Int
  minute : Int
  second : Int
  zoneOffset : Option Int
deriving Repr, DecidableEq

/-- The state before any component is read. -/
def initGoTime : GoTime := ⟨0, 1, 1, 0, 0, 0, none⟩

/-- Model of Go's `getnum`: one or two decimal digits (exactly two when
`fixed`). -/
def getnum (fixed : Bool) : List Char → Option (Int × List Char)
  | [] => none
  | [c] =>
    if c.isDigit && !fixed then some (((digitVal c : Nat) : Int), []) else none
  | c1 :: c2 :: rest =>
    if !c1.isDigit then none
    else if c2.isDigit then
      some (((digitVal c1 * 10 + digitVal c2 : Nat) : Int), rest)
    else if fixed then none
    else some (((digitVal c1 : Nat) : Int), c2 :: rest)

/-- Exactly four decimal digits (Go's year parse for the `"2006"` chunk). -/
def getYear4 : List Char → Option (Int × List Char)
  | a :: b :: c :: d :: rest =>
    if a.isDigit && b.isDigit && c.isDigit && d.isDigit then
      some (((digitVal a * 1000 + digitVal b * 100 + digitVal c * 10 + digitVal d : Nat) : Int),
        rest)
    else none
  | _ => none

/-- Signed `hhmm` or `hh:mm` zone offset in seconds (Go's numeric zone
parse). -/
def getTZ (colon : Bool) (v : List Char) : Option (Int × List Char) :=
  match colon, v with
  | true, s :: h1 :: h2 :: ':' :: m1 :: m2 :: rest =>
    if (s == '+' || s == '-') && h1.isDigit && h2.isDigit && m1.isDigit && m2.isDigit then
      let off : Int := (((digitVal h1 * 10 + digitVal h2) * 60 + (digitVal m1 * 10 + digitVal m2))
        * 60 : Nat)
      some ((if s == '-' then -off else off), rest)
    else none
  | false, s :: h1 :: h2 :: m1 :: m2 :: rest =>
    if (s == '+' || s == '-') && h1.isDigit && h2.isDigit && m1.isDigit && m2.isDigit then
      let off : Int := (((digitVal h1 * 10 + digitVal h2) * 60 + (digitVal m1 * 10 + digitVal m2))
        * 60 : Nat)
      some ((if s == '-' then -off else off), rest)
    else none
  | _, _ => none

/-- Signed `hh` zone offset in seconds (Go's `"-07"` chunk). -/
def getTZShort (v : List Char) : Option (Int × List Char) :=
  match v with
  | s :: h1 :: h2 :: rest =>
    if (s == '+' || s == '-') && h1.isDigit && h2.isDigit then
      let off : Int := ((digitVal h1 * 10 + digitVal h2) * 3600 : Nat)
      some ((if s == '-' then -off else off), rest)
    else none
  | _ => none

/-- After a seconds chunk Go consumes an optional fractional second present in
the value even when the layout has none. -/
def skipFraction : List Char → List Char
  | p :: d :: rest =>
    if (p == '.' || p == ',') && d.isDigit then (splitDigits (d :: rest)).2
    else p :: d :: rest
  | l => l

/-- Read one chunk's component from the value, mirroring Go's parse loop:
hour/minute/second ranges are checked immediately, month and day at the end. -/
def parseStd (std : StdChunk) (st : GoTime) (v : List Char) : Option (GoTime × List Char) :=
  match std with
  | .longYear =>
    (getYear4 v).map (fun r => ({ st with year := r.1 }, r.2))
  | .yearTwo =>
    (getnum true v).map (fun r =>
      let y : Int := r.1
      ({ st with year := if y ≥ 69 then y + 1900 else y + 2000 }, r.2))
  | .zeroMonth => (getnum true v).map (fun r => ({ st with month := r.1 }, r.2))
  | .numMonth => (getnum false v).map (fun r => ({ st with month := r.1 }, r.2))
  | .zeroDay => (getnum true v).map (fun r => ({ st with day := r.1 }, r.2))
  | .day => (getnum false v).map (fun r => ({ st with day := r.1 }, r.2))
  | .hour =>
    (getnum false v).bind (fun r =>
      if 24 ≤ r.1 then none else some ({ st with hour := r.1 }, r.2))
  | .hour12 =>
    (getnum false v).bind (fun r =>
      if 12 < r.1 then none else some ({ st with hour := r.1 }, r.2))
  | .zeroHour12 =>
    (getnum true v).bind (fun r =>
      if 12 < r.1 then none else some ({ st with hour := r.1 }, r.2))
  | .minute =>
    (getnum false v).bind (fun r =>
      if 60 ≤ r.1 then none else some ({ st with minute := r.1 }, r.2))
  | .zeroMinute =>
    (getnum true v).bind (fun r =>
      if 60 ≤ r.1 then none else some ({ st with minute := r.1 }, r.2))
  | .second =>
    (getnum false v).bind (fun r =>
      if 60 ≤ r.1 then none else some ({ st with second := r.1 }, skipFraction r.2))
  | .zeroSecond =>
    (getnum true v).bind (fun r =>
      if 60 ≤ r.1 then none else some ({ st with second := r.1 }, skipFraction r.2))
  | .iso8601TZ =>
    match v with
    | 'Z' :: rest => some ({ st with zoneOffset := some 0 }, rest)
    | _ => (getTZ false v).map (fun r => ({ st with zoneOffset := some r.1 }, r.2))
  | .iso8601ColonTZ =>
    match v with
    | 'Z' :: rest => some ({ st with zoneOffset := some 0 }, rest)
    | _ => (getTZ true v).map (fun r => ({ st with zoneOffset := some r.1 }, r.2))
  | .numTZ => (getTZ false v).map (fun r => ({ st with zoneOffset := some r.1 }, r.2))
  | .numColonTZ => (getTZ true v).map (fun r => ({ st with zoneOffset := some r.1 }, r.2))
  | .numShortTZ => (getTZShort v).map (fun r => ({ st with zoneOffset := some r.1 }, r.2))

/-- Match a literal layout fragment against the value. -/
def stripLit : List Char → List Char → Option (List Char)
  | [], v => some v
  | p :: ps, c :: cs => if c == p then stripLit ps cs else none
  | _ :: _, [] => none

/-- Interpret the chunk sequence over the value. -/
def runChunks : List (List Char × StdChunk) → List Char → List Char → GoTime →
    Option (GoTime × List Char)
  | [], trail, value, st => (stripLit trail value).map (fun v => (st, v))
  | (pre, std) :: cs, trail, value, st =>
    match stripLit pre value with
    | none => none
    | some v1 =>
      match parseStd std st v1 with
      | none => none
      | some r => runChunks cs trail r.2 r.1

/-- Leap year predicate (Gregorian). -/
def isLeap (y : Int) : Bool := y % 4 == 0 && (y % 100 != 0 || y % 400 == 0)

/-- Days in a month. -/
def daysInMonth (m y : Int) : Int :=
  if m == 2 then (if isLeap y then 29 else 28)
  else if m == 4 || m == 6 || m == 9 || m == 11 then 30
  else 31

/-- Go's end-of-parse validation: month then day-in-month range. -/
def finalizeGoTime (st : GoTime) : Option GoTime :=
  if st.month < 1 || 12 < st.month then none
  else if st.day < 1 || daysInMonth st.month st.year < st.day then none
  else some st

/-- Model of Go `time.Parse(layout, value)` for the chunk subset above.
Returns the parsed components, or `none` where Go returns a non-nil error. -/
def goTimeParse (layout value : String) : Option GoTime :=
  match runChunks (layoutChunks layout.toList).1 (layoutChunks layout.toList).2
      value.toList initGoTime with
  | none => none
  | some (st, rest) => if rest.isEmpty then finalizeGoTime st else none

/-- Days between a Gregorian civil date and 1970-01-01 (standard
days-from-civil computation). -/
def daysFromCivil (y m d : Int) : Int :=
  let y1 := if m ≤ 2 then y - 1 else y
  let era := (if 0 ≤ y1 then y1 else y1 - 399) / 400
  let yoe := y1 - era * 400
  let mp := (m + 9) % 12
  let doy := (153 * mp + 2) / 5 + d - 1
  let doe := yoe * 365 + yoe / 4 - yoe / 100 + doy
  era * 146097 + doe - 719468

/-- The Unix-seconds instant denoted by parsed components (Go's conversion of
wall-clock fields plus zone offset to an absolute time). -/
def goTimeToUnix (t : GoTime) : Int :=
  daysFromCivil t.year t.month t.day * 86400 + t.hour * 3600 + t.minute * 60 + t.second
    - (t.zoneOffset.getD 0)

/-- Go's `time.RFC3339` layout constant. -/
def rfc3339Layout : String := "2006-01-02T15:04:05Z07:00"

/-- Go's `time.DateOnly` layout constant. -/
def dateOnlyLayout : String := "2006-01-02"

/-- The period-date layout used by `convertLocation` (`val.go`). -/
def periodLayout : String := "2006-01-02Z"

/-! ### Transport (`fetch` in the client file, with `url.QueryEscape`) -/

/-- Upper-case hexadecimal digit. -/
def hexDigit (n : Nat) : Char :=
  if n < 10 then Char.ofNat (('0').toNat + n) else Char.ofNat (('A').toNat + n - 10)

/-- UTF-8 byte sequence of a character. -/
def utf8Bytes (c : Char) : List Nat :=
  let n := c.toNat
  if n < 0x80 then [n]
  else if n < 0x800 then [0xC0 + n / 0x40, 0x80 + n % 0x40]
  else if n < 0x10000 then
    [0xE0 + n / 0x1000, 0x80 + (n / 0x40) % 0x40, 0x80 + n % 0x40]
  else
    [0xF0 + n / 0x40000, 0x80 + (n / 0x1000) % 0x40, 0x80 + (n / 0x40) % 0x40, 0x80 + n % 0x40]

/-- Characters Go's query escaping leaves unchanged. -/
def isUnreservedQueryChar (c : Char) : Bool :=
  c.isAlphanum || c == '-' || c == '_' || c == '.' || c == '~'

/-- Model of Go `url.QueryEscape`: alphanumerics and `-_.~` verbatim, space as
`+`, every other byte percent-encoded. -/
def queryEscape (s : String) : String :=
  String.mk (s.toList.foldr
    (fun c acc =>
      if isUnreservedQueryChar c then c :: acc
      else if c == ' ' then '+' :: acc
      else (utf8Bytes c).foldr
        (fun b acc2 => '%' :: hexDigit (b / 16) :: hexDigit (b % 16) :: acc2) acc)
    [])

/-- The URL built by `fetch` after `url.JoinPath`: the credential key is
concatenated verbatim, each optional query parameter is escaped
(`target + "?key=" + key` then `"&" + QueryEscape(k) + "=" + QueryEscape(v)`
per entry). -/
def buildQuery (target key : String) (params : List (String × String)) : String :=
  params.foldl
    (fun acc kv => acc ++ "&" ++ queryEscape kv.1 ++ "=" ++ queryEscape kv.2)
    (target ++ "?key=" ++ key)

/-- An HTTP response as `fetch` sees it: a status code and the outcome of
reading the body to the end. -/
structure HttpResponse where
  statusCode : Nat
  body : Except String String
deriving Repr

/-- Outcome of `httpClient.Get`. -/
inductive GetOutcome where
  | failed (msg : String)
  | response (r : HttpResponse)
deriving Repr

/-- Model of `fetch` from the resolved target URL on: build the query string,
perform the GET, read the body.  Returns (body bytes, target, error) exactly
as the source does; the response's status code is never consulted. -/
def fetch (target key : String) (params : List (String × String))
    (net : String → GetOutcome) : Option String × String × Option String :=
  match net (buildQuery target key params) with
  | .failed e =>
    (none, target, some ("failed to query " ++ target ++ ": " ++ e))
  | .response r =>
    match r.body with
    | .error e =>
      (none, target, some ("failed to read body from response from " ++ target ++ ": " ++ e))
    | .ok body => (some body, target, none)

/-! ### Domain model and wire schemas (`val.go`, `txt.go`) -/

/-- `ParameterDescriptor` (`val.go`). -/
structure ParameterDescriptor where
  name : String
  units : String
  description : String
deriving Repr, DecidableEq

/-- `StringParameterValue` (`val.go`). -/
structure StringParameterValue where
  descriptor : ParameterDescriptor
  value : String
deriving Repr, DecidableEq

/-- `IntParameterValue` (`val.go`). -/
structure IntParameterValue where
  descriptor : ParameterDescriptor
  value : Int
deriving Repr, DecidableEq

/-- `Forecast` (`val.go`); the two Go maps are modelled as association
lists. -/
structure Forecast where
  time : Int
  intParams : List (String × IntParameterValue)
  stringParams : List (String × StringParameterValue)
deriving Repr, DecidableEq

/-- `Period` (`val.go`). -/
structure Period where
  type : String
  time : Int
  forecasts : List Forecast
deriving Repr, DecidableEq

/-- `LocationRep` (`val.go`). -/
structure LocationRep where
  id : Int
  latitude : Rat
  longitude : Rat
  name : String
  country : String
  continent : String
  elevation : Rat
  period : List Period
deriving Repr, DecidableEq

/-- `SiteRep` (`val.go`). -/
structure SiteRep where
  dataDate : Int
  type : String
  location : LocationRep
deriving Repr, DecidableEq

/-- `Site` (`val.go`). -/
structure Site where
  id : Int
  latitude : Rat
  longitude : Rat
  name : String
  elevation : Rat
  region : String
  unitaryAuthArea : String
deriving Repr, DecidableEq

/-- One entry of the sitelist wire response (`siteResponse` in `val.go`). -/
structure SiteWire where
  elevation : String
  id : String
  latitude : String
  longitude : String
  name : String
  region : String
  unitaryAuthArea : String
deriving Repr, DecidableEq

/-- One entry of the `Param` side-table (`wxResponse` in `val.go`). -/
structure ParamWire where
  name : String
  units : String
  description : String
deriving Repr, DecidableEq

/-- One `Period` of the wire response (`locationEntry.Period` in `val.go`);
each `Rep` is a Go map from parameter code to string value, modelled as an
association list with distinct keys. -/
structure PeriodWire where
  type : String
  value : String
  rep : List (List (String × String))
deriving Repr, DecidableEq

/-- `locationEntry` (`val.go`). -/
structure LocationEntryWire where
  id : String
  latitude : String
  longitude : String
  name : String
  country : String
  continent : String
  elevation : String
  period : List PeriodWire
deriving Repr, DecidableEq

/-- `knownIntParams` (`val.go`), spelled out through the constants of
`contants.go`: FeelsLikeTemp, WindGust, ScreenRelativeHumidity,
PrecipitationProbability, WindSpeed, Temperature, WeatherType, MaxUvIndex,
WindGustNoon, ScreenRelativeHumidityNoon, DayMaximumTemperature,
NightMinimumTemperature, FeelsLikeDayMaximumTemperature,
PrecipitationProbabilityDay, PrecipitationProbabilityNight, and the literal
`"$"`. -/
def knownIntParams : List String :=
  ["F", "G", "H", "Pp", "S", "T", "W", "U", "Gn", "Hn", "Dm", "Nm", "FDm", "PPd", "PPn", "$"]

/-! ### Converters (`val.go`) -/

/-- The sitelist per-entry conversion (loop body of `siteList`, `val.go`
lines 74–106).  The second component collects the non-fatal warnings logged
via `slog.Warn`. -/
def convertSite (w : SiteWire) : Except String (Site × List String) :=
  match goParseFloat w.latitude with
  | none => .error ("failed to parse latitude " ++ w.latitude ++ " for sitelist")
  | some latitude =>
    match goParseFloat w.longitude with
    | none => .error ("failed to parse longitude " ++ w.longitude ++ " for sitelist")
    | some longitude =>
      match goParseInt 64 w.id with
      | none => .error ("failed to parse id " ++ w.id ++ " for sitelist")
      | some id =>
        if w.elevation == "" then
          .ok (⟨id, latitude, longitude, w.name, 0, w.region, w.unitaryAuthArea⟩, [])
        else
          match goParseFloat w.elevation with
          | none =>
            .ok (⟨id, latitude, longitude, w.name, 0, w.region, w.unitaryAuthArea⟩,
              [("failed to parse elevation " ++ w.elevation)])
          | some elevation =>
            .ok (⟨id, latitude, longitude, w.name, elevation, w.region, w.unitaryAuthArea⟩, [])

/-- The `$` offset decoding of `convertLocation` (`val.go` lines 345–356):
`"Day"` is 0 seconds, `"Night"` is 86399 seconds, anything else is
`strconv.ParseInt(_, 10, 16)` minutes converted to seconds. -/
def decodeOffset (offsetString : String) : Except String Int :=
  if offsetString == "Day" then .ok 0
  else if offsetString == "Night" then .ok 86399
  else
    match goParseInt 16 offsetString with
    | none => .error ("failed to parse forecast offset " ++ offsetString)
    | some offset64 => .ok (offset64 * 60)

/-- The parameter-classification loop of `convertLocation` (`val.go` lines
358–383): skip `$`, require a descriptor for every other key, and store the
value as a parsed 16-bit integer when the key is in `knownIntParams`,
verbatim as a string otherwise.  The Go `Rep` map is modelled as an
association list; Go iterates the map in unspecified order, which the list
order stands in for, and since a JSON-decoded map has distinct keys and the
classification of a key never changes, the mappings built here agree with the
Go maps on every lookup. -/
def convertRepParams (paramDefinitions : List (String × ParameterDescriptor)) :
    List (String × String) →
    Except String (List (String × IntParameterValue) × List (String × StringParameterValue))
  | [] => .ok ([], [])
  | (k, v) :: rest =>
    if k == "$" then convertRepParams paramDefinitions rest
    else
      match paramDefinitions.lookup k with
      | none => .error ("could not find descriptor for parameter " ++ k)
      | some descriptor =>
        if knownIntParams.contains k then
          match goParseInt 16 v with
          | none => .error ("failed to parse known int value " ++ k)
          | some n =>
            match convertRepParams paramDefinitions rest with
            | .error e => .error e
            | .ok r => .ok ((k, ⟨descriptor, n⟩) :: r.1, r.2)
        else
          match convertRepParams paramDefinitions rest with
          | .error e => .error e
          | .ok r => .ok (r.1, (k, ⟨descriptor, v⟩) :: r.2)

/-- Conversion of one `Rep` record into a `Forecast` (`val.go` lines
336–389): the mandatory `$` marker fixes the offset from the period date. -/
def convertRep (paramDefinitions : List (String × ParameterDescriptor)) (periodTime : Int)
    (rep : List (String × String)) : Except String Forecast :=
  match rep.lookup "$" with
  | none => .error ("could not find forecast offset")
  | some offsetString =>
    match decodeOffset offsetString with
    | .error e => .error e
    | .ok offset =>
      match convertRepParams paramDefinitions rep with
      | .error e => .error e
      | .ok r => .ok ⟨periodTime + offset, r.1, r.2⟩

/-- The `Rep` loop of one period. -/
def convertReps (paramDefinitions : List (String × ParameterDescriptor)) (periodTime : Int) :
    List (List (String × String)) → Except String (List Forecast)
  | [] => .ok []
  | rep :: rest =>
    match convertRep paramDefinitions periodTime rep with
    | .error e => .error e
    | .ok f =>
      match convertReps paramDefinitions periodTime rest with
      | .error e => .error e
      | .ok fs => .ok (f :: fs)

/-- Conversion of one wire period (`val.go` lines 329–397): parse the period
date against `"2006-01-02Z"`, then convert every `Rep`. -/
def convertPeriod (paramDefinitions : List (String × ParameterDescriptor))
    (p : PeriodWire) : Except String Period :=
  match goTimeParse periodLayout p.value with
  | none => .error ("failed to parse period offset " ++ p.value)
  | some t =>
    match convertReps paramDefinitions (goTimeToUnix t) p.rep with
    | .error e => .error e
    | .ok fs => .ok ⟨p.type, goTimeToUnix t, fs⟩

/-- The period loop of `convertLocation`. -/
def convertPeriodList (paramDefinitions : List (String × ParameterDescriptor)) :
    List PeriodWire → Except String (List Period)
  | [] => .ok []
  | p :: rest =>
    match convertPeriod paramDefinitions p with
    | .error e => .error e
    | .ok r =>
      match convertPeriodList paramDefinitions rest with
      | .error e => .error e
      | .ok rs => .ok (r :: rs)

/-- `convertLocation` (`val.go` lines 327–436): convert all periods, then the
id, latitude and longitude, then the elevation — which defaults to 0 only
when the wire string is empty, and is a hard parse error otherwise. -/
def convertLocation (paramDefinitions : List (String × ParameterDescriptor))
    (typeName : String) (startTime : Int) (entry : LocationEntryWire) :
    Except String SiteRep :=
  match convertPeriodList paramDefinitions entry.period with
  | .error e => .error e
  | .ok periods =>
    match goParseInt 64 entry.id with
    | none => .error ("failed to parse id " ++ entry.id)
    | some id =>
      match goParseFloat entry.latitude with
      | none => .error ("failed to parse latitude " ++ entry.latitude)
      | some lat =>
        match goParseFloat entry.longitude with
        | none => .error ("failed to parse longitude " ++ entry.longitude)
        | some lon =>
          match (if entry.elevation == "" then .ok 0
            else
              match goParseFloat entry.elevation with
              | none => .error ("failed to parse elevation")
              | some elevation => .ok elevation :
              Except String Rat) with
          | .error e => .error e
          | .ok elevation =>
            .ok ⟨startTime, typeName,
              ⟨id, lat, lon, entry.name, entry.country, entry.continent, elevation, periods⟩⟩

/-- The decoded single-location forecast envelope (`siteRepResponse` in
`val.go`). -/
structure SiteRepSingleWire where
  params : List ParamWire
  dataDate : String
  typeName : String
  location : LocationEntryWire
deriving Repr, DecidableEq

/-- The `Param` side-table is loaded into a Go map keyed by short code, later
entries overwriting earlier ones (`FiveDayForecast`, `val.go` lines
467–474); prepending gives the same lookup behaviour. -/
def buildParamDefs (ps : List ParamWire) : List (String × ParameterDescriptor) :=
  ps.foldl (fun m p => (p.name, ⟨p.name, p.units, p.description⟩) :: m) []

/-- `FiveDayForecast` after JSON decoding (`val.go` lines 463–487): the empty
location id is the documented no-data sentinel `(nil, nil)`; otherwise build
the descriptor table, parse the issue date, and convert the location.  The
result is the Go `(*SiteRep, error)` pair. -/
def fiveDayForecastConvert (w : SiteRepSingleWire) : Option SiteRep × Option String :=
  if w.location.id == "" then (none, none)
  else
    let paramDefinitions := buildParamDefs w.params
    match goTimeParse rfc3339Layout w.dataDate with
    | none => (none, some ("failed to parse period start time " ++ w.dataDate))
    | some startTime =>
      match convertLocation paramDefinitions w.typeName (goTimeToUnix startTime) w.location with
      | .error e => (none, some e)
      | .ok r => (some r, none)

/-! ### Converters (`txt.go`) -/

/-- `ExtremeCapabilities` (`txt.go`), instants as Unix seconds. -/
structure ExtremeCapabilities where
  extremeDate : Int
  issuedAt : Int
deriving Repr, DecidableEq

/-- `UkExtremesCapabilities` after JSON decoding (`txt.go` lines 38–50):
the extreme date is parsed against `time.DateOnly`, the issue timestamp
against `time.RFC3339`; each failure embeds the offending string. -/
def ukExtremesCapabilitiesConvert (extremeDate issuedAt : String) :
    Option ExtremeCapabilities × Option String :=
  match goTimeParse dateOnlyLayout extremeDate with
  | none => (none, some ("failed to parse date " ++ extremeDate ++ " for extreme date"))
  | some ed =>
    match goTimeParse rfc3339Layout issuedAt with
    | none => (none, some ("failed to parse date " ++ issuedAt ++ " for issued at date"))
    | some ia => (some ⟨goTimeToUnix ed, goTimeToUnix ia⟩, none)

/-- `RegionalForecastCapabilities` after JSON decoding (`txt.go` lines
239–250).  Line 245 of the source reads
`time.Parse(result.RegionalForecast.IssuedAt, time.RFC3339)` — the decoded
field is passed as the LAYOUT and the `RFC3339` constant as the value — and
the model reproduces that argument order exactly. -/
def regionalForecastCapabilitiesConvert (issuedAt : String) : Option Int × Option String :=
  match goTimeParse issuedAt rfc3339Layout with
  | none => (none, some ("failed to parse issued at time"))
  | some t => (some (goTimeToUnix t), none)

/-- `Extreme` (`txt.go`). -/
structure Extreme where
  locationId : Int
  locationName : String
  type : String
  unitOfMeasurement : String
  value : Rat
deriving Repr, DecidableEq

/-- `Region` (`txt.go`). -/
structure Region where
  id : String
  name : String
  extremes : List Extreme
deriving Repr, DecidableEq

/-- `LatestExtremes` (`txt.go`). -/
structure LatestExtremes where
  extremeDate : Int
  issuedAt : Int
  regions : List Region
deriving Repr, DecidableEq

/-- One wire extreme (`latestExtremesResponse` in `txt.go`). -/
structure ExtremeWire where
  locationId : String
  locationName : String
  type : String
  uom : String
  value : String
deriving Repr, DecidableEq

/-- One wire region. -/
structure RegionWire where
  id : String
  name : String
  extremes : List ExtremeWire
deriving Repr, DecidableEq

/-- The decoded UK-extremes-latest envelope. -/
structure LatestExtremesWire where
  extremeDate : String
  issuedAt : String
  regions : List RegionWire
deriving Repr, DecidableEq

/-- One extreme reading (`UkExtremesLatest` loop body, `txt.go` lines
128–146). -/
def convertExtreme (e : ExtremeWire) : Except String Extreme :=
  match goParseInt 64 e.locationId with
  | none => .error ("failed to parse location id " ++ e.locationId)
  | some lid =>
    match goParseFloat e.value with
    | none => .error ("failed to parse value " ++ e.value)
    | some v => .ok ⟨lid, e.locationName, e.type, e.uom, v⟩

/-- The extremes loop of one region. -/
def convertExtremeList : List ExtremeWire → Except String (List Extreme)
  | [] => .ok []
  | e :: rest =>
    match convertExtreme e with
    | .error msg => .error msg
    | .ok x =>
      match convertExtremeList rest with
      | .error msg => .error msg
      | .ok xs => .ok (x :: xs)

/-- The region loop of `UkExtremesLatest`. -/
def convertRegionList : List RegionWire → Except String (List Region)
  | [] => .ok []
  | r :: rest =>
    match convertExtremeList r.extremes with
    | .error msg => .error msg
    | .ok xs =>
      match convertRegionList rest with
      | .error msg => .error msg
      | .ok rs => .ok (⟨r.id, r.name, xs⟩ :: rs)

/-- `UkExtremesLatest` after JSON decoding (`txt.go` lines 119–170): convert
every region, then parse the extreme date (`time.DateOnly`) and the issue
timestamp (`time.RFC3339`).  The result is the Go
`(*LatestExtremes, error)` pair. -/
def ukExtremesLatestConvert (w : LatestExtremesWire) :
    Option LatestExtremes × Option String :=
  match convertRegionList w.regions with
  | .error e => (none, some e)
  | .ok rs =>
    match goTimeParse dateOnlyLayout w.extremeDate with
    | none => (none, some ("failed to parse the extreme date"))
    | some ed =>
      match goTimeParse rfc3339Layout w.issuedAt with
      | none => (none, some ("failed to parse the issued at date"))
      | some ia => (some ⟨goTimeToUnix ed, goTimeToUnix ia, rs⟩, none)

/-! ### Helper lemmas -/

theorem convertRepParams_nil (pd : List (String × ParameterDescriptor)) :
    convertRepParams pd [] = .ok ([], []) := rfl

/-- Every key found in the integer mapping is on the allow-list, and every key
found in the string mapping is off it. -/
theorem convertRepParams_classify (pd : List (String × ParameterDescriptor))
    (rep : List (String × String)) (ips : List (String × IntParameterValue))
    (sps : List (String × StringParameterValue))
    (h : convertRepParams pd rep = .ok (ips, sps)) (k : String) :
    ((ips.lookup k).isSome = true → knownIntParams.contains k = true) ∧
    ((sps.lookup k).isSome = true → knownIntParams.contains k = false) := by
  induction rep generalizing ips sps with
  | nil =>
    rw [convertRepParams_nil] at h
    cases h
    simp [List.lookup]
  | cons kv rest ih =>
    obtain ⟨k1, v1⟩ := kv
    simp only [convertRepParams] at h
    split at h
    · exact ih ips sps h
    · split at h
      · exact Except.noConfusion h
      · split at h
        · rename_i descriptor hcont
          split at h
          · exact Except.noConfusion h
          · rename_i n _
            split at h
            · exact Except.noConfusion h
            · rename_i r hrest
              injection h with h2
              obtain ⟨hips, hsps⟩ := Prod.mk.injEq .. ▸ h2
              subst hips hsps
              by_cases hk : k = k1
              · subst hk
                refine ⟨fun _ => hcont, fun hs => ?_⟩
                exact absurd hcont (by simpa using (ih r.1 r.2 hrest).2 hs)
              · have hbk : (k == k1) = false := by simpa using hk
                simpa [List.lookup, hbk] using ih r.1 r.2 hrest
        · rename_i descriptor hcont
          split at h
          · exact Except.noConfusion h
          · rename_i r hrest
            injection h with h2
            obtain ⟨hips, hsps⟩ := Prod.mk.injEq .. ▸ h2
            subst hips hsps
            by_cases hk : k = k1
            · subst hk
              refine ⟨fun hs => ?_, fun _ => by simpa using hcont⟩
              exact absurd ((ih r.1 r.2 hrest).1 hs) (by simpa using hcont)
            · have hbk : (k == k1) = false := by simpa using hk
              simpa [List.lookup, hbk] using ih r.1 r.2 hrest

/-- Every non-`$` key of the record lands in at least one of the two
mappings. -/
theorem convertRepParams_covers (pd : List (String × ParameterDescriptor))
    (rep : List (String × String)) (ips : List (String × IntParameterValue))
    (sps : List (String × StringParameterValue))
    (h : convertRepParams pd rep = .ok (ips, sps)) (k v : String)
    (hmem : (k, v) ∈ rep) (hk : k ≠ "$") :
    (ips.lookup k).isSome = true ∨ (sps.lookup k).isSome = true := by
  induction rep generalizing ips sps with
  | nil => cases hmem
  | cons kv rest ih =>
    obtain ⟨k1, v1⟩ := kv
    simp only [convertRepParams] at h
    rcases List.mem_cons.mp hmem with hhd | htl
    · obtain ⟨hk1, hv1⟩ := Prod.mk.injEq .. ▸ hhd
      subst hk1 hv1
      split at h
      · exact absurd (by simpa using (by assumption : (k == "$") = true)) hk
      · split at h
        · exact Except.noConfusion h
        · split at h
          · split at h
            · exact Except.noConfusion h
            · split at h
              · exact Except.noConfusion h
              · injection h with h2
                obtain ⟨hips, hsps⟩ := Prod.mk.injEq .. ▸ h2
                subst hips hsps
                left
                simp [List.lookup]
          · split at h
            · exact Except.noConfusion h
            · injection h with h2
              obtain ⟨hips, hsps⟩ := Prod.mk.injEq .. ▸ h2
              subst hips hsps
              right
              simp [List.lookup]
    · split at h
      · exact ih ips sps h htl
      · split at h
        · exact Except.noConfusion h
        · split at h
          · split at h
            · exact Except.noConfusion h
            · split at h
              · exact Except.noConfusion h
              · rename_i r hrest
                injection h with h2
                obtain ⟨hips, hsps⟩ := Prod.mk.injEq .. ▸ h2
                subst hips hsps
                by_cases hkk : k = k1
                · subst hkk
                  left
                  simp [List.lookup]
                · have hbk : (k == k1) = false := by simpa using hkk
                  simpa [List.lookup, hbk] using ih r.1 r.2 hrest htl
          · split at h
            · exact Except.noConfusion h
            · rename_i r hrest
              injection h with h2
              obtain ⟨hips, hsps⟩ := Prod.mk.injEq .. ▸ h2
              subst hips hsps
              by_cases hkk : k = k1
              · subst hkk
                right
                simp [List.lookup]
              · have hbk : (k == k1) = false := by simpa using hkk
                simpa [List.lookup, hbk] using ih r.1 r.2 hrest htl

/-- The value stored for a key on the allow-list: the descriptor from the
side-table together with the parsed 16-bit integer. -/
theorem convertRepParams_int_value (pd : List (String × ParameterDescriptor))
    (rep : List (String × String)) (ips : List (String × IntParameterValue))
    (sps : List (String × StringParameterValue))
    (h : convertRepParams pd rep = .ok (ips, sps)) (k v : String)
    (hlk : rep.lookup k = some v) (hk : k ≠ "$")
    (hcont : knownIntParams.contains k = true) :
    ∃ d n, pd.lookup k = some d ∧ goParseInt 16 v = some n ∧
      ips.lookup k = some ⟨d, n⟩ := by
  have hmemk : k ∈ knownIntParams := by simpa using hcont
  induction rep generalizing ips sps with
  | nil => cases hlk
  | cons kv rest ih =>
    obtain ⟨k1, v1⟩ := kv
    by_cases hkk : k = k1
    · subst hkk
      have hbs : (k == "$") = false := by simpa using hk
      simp only [List.lookup, beq_self_eq_true] at hlk
      have hv : v1 = v := by injection hlk
      subst hv
      cases hdesc : pd.lookup k with
      | none => simp [convertRepParams, hbs, hdesc] at h
      | some d =>
        cases hparse : goParseInt 16 v1 with
        | none => simp [convertRepParams, hbs, hdesc, hmemk, hparse] at h
        | some n =>
          cases hrest : convertRepParams pd rest with
          | error e => simp [convertRepParams, hbs, hdesc, hmemk, hparse, hrest] at h
          | ok r =>
            simp [convertRepParams, hbs, hdesc, hmemk, hparse, hrest] at h
            obtain ⟨hips, hsps⟩ := h
            subst hips hsps
            exact ⟨d, n, rfl, rfl, by simp [List.lookup]⟩
    · have hbk : (k == k1) = false := by simpa using hkk
      simp only [List.lookup, hbk] at hlk
      by_cases h1 : k1 = "$"
      · have hbs1 : (k1 == "$") = true := by simpa using h1
        simp only [convertRepParams, hbs1, if_true] at h
        exact ih ips sps h hlk
      · have hbs1 : (k1 == "$") = false := by simpa using h1
        cases hdesc1 : pd.lookup k1 with
        | none => simp [convertRepParams, hbs1, hdesc1] at h
        | some d1 =>
          by_cases hm1 : k1 ∈ knownIntParams
          · cases hparse1 : goParseInt 16 v1 with
            | none => simp [convertRepParams, hbs1, hdesc1, hm1, hparse1] at h
            | some n1 =>
              cases hrest : convertRepParams pd rest with
              | error e => simp [convertRepParams, hbs1, hdesc1, hm1, hparse1, hrest] at h
              | ok r =>
                simp [convertRepParams, hbs1, hdesc1, hm1, hparse1, hrest] at h
                obtain ⟨hips, hsps⟩ := h
                subst hips hsps
                obtain ⟨d, n, hd, hn, hlook⟩ := ih r.1 r.2 hrest hlk
                exact ⟨d, n, hd, hn, by simpa [List.lookup, hbk] using hlook⟩
          · cases hrest : convertRepParams pd rest with
            | error e => simp [convertRepParams, hbs1, hdesc1, hm1, hrest] at h
            | ok r =>
              simp [convertRepParams, hbs1, hdesc1, hm1, hrest] at h
              obtain ⟨hips, hsps⟩ := h
              subst hips hsps
              exact ih r.1 r.2 hrest hlk

/-- The value stored for a key off the allow-list: the descriptor from the
side-table together with the verbatim wire string. -/
theorem convertRepParams_string_value (pd : List (String × ParameterDescriptor))
    (rep : List (String × String)) (ips : List (String × IntParameterValue))
    (sps : List (String × StringParameterValue))
    (h : convertRepParams pd rep = .ok (ips, sps)) (k v : String)
    (hlk : rep.lookup k = some v) (hk : k ≠ "$")
    (hcont : knownIntParams.contains k = false) :
    ∃ d, pd.lookup k = some d ∧ sps.lookup k = some ⟨d, v⟩ := by
  have hmemk : k ∉ knownIntParams := by simpa using hcont
  induction rep generalizing ips sps with
  | nil => cases hlk
  | cons kv rest ih =>
    obtain ⟨k1, v1⟩ := kv
    by_cases hkk : k = k1
    · subst hkk
      have hbs : (k == "$") = false := by simpa using hk
      simp only [List.lookup, beq_self_eq_true] at hlk
      have hv : v1 = v := by injection hlk
      subst hv
      cases hdesc : pd.lookup k with
      | none => simp [convertRepParams, hbs, hdesc] at h
      | some d =>
        cases hrest : convertRepParams pd rest with
        | error e => simp [convertRepParams, hbs, hdesc, hmemk, hrest] at h
        | ok r =>
          simp [convertRepParams, hbs, hdesc, hmemk, hrest] at h
          obtain ⟨hips, hsps⟩ := h
          subst hips hsps
          exact ⟨d, rfl, by simp [List.lookup]⟩
    · have hbk : (k == k1) = false := by simpa using hkk
      simp only [List.lookup, hbk] at hlk
      by_cases h1 : k1 = "$"
      · have hbs1 : (k1 == "$") = true := by simpa using h1
        simp only [convertRepParams, hbs1, if_true] at h
        exact ih ips sps h hlk
      · have hbs1 : (k1 == "$") = false := by simpa using h1
        cases hdesc1 : pd.lookup k1 with
        | none => simp [convertRepParams, hbs1, hdesc1] at h
        | some d1 =>
          by_cases hm1 : k1 ∈ knownIntParams
          · cases hparse1 : goParseInt 16 v1 with
            | none => simp [convertRepParams, hbs1, hdesc1, hm1, hparse1] at h
            | some n1 =>
              cases hrest : convertRepParams pd rest with
              | error e => simp [convertRepParams, hbs1, hdesc1, hm1, hparse1, hrest] at h
              | ok r =>
                simp [convertRepParams, hbs1, hdesc1, hm1, hparse1, hrest] at h
                obtain ⟨hips, hsps⟩ := h
                subst hips hsps
                exact ih r.1 r.2 hrest hlk
          · cases hrest : convertRepParams pd rest with
            | error e => simp [convertRepParams, hbs1, hdesc1, hm1, hrest] at h
            | ok r =>
              simp [convertRepParams, hbs1, hdesc1, hm1, hrest] at h
              obtain ⟨hips, hsps⟩ := h
              subst hips hsps
              obtain ⟨d, hd, hlook⟩ := ih r.1 r.2 hrest hlk
              exact ⟨d, hd, by simpa [List.lookup, hbk] using hlook⟩

/-- A record containing an allow-listed key whose value does not parse as a
16-bit integer never converts successfully. -/
theorem convertRepParams_intFail (pd : List (String × ParameterDescriptor))
    (rep : List (String × String)) (k v : String) (hmem : (k, v) ∈ rep)
    (hk : k ≠ "$") (hcont : knownIntParams.contains k = true)
    (hbad : goParseInt 16 v = none)
    (res : List (String × IntParameterValue) × List (String × StringParameterValue)) :
    convertRepParams pd rep ≠ .ok res := by
  have hmemk : k ∈ knownIntParams := by simpa using hcont
  induction rep generalizing res with
  | nil => cases hmem
  | cons kv rest ih =>
    obtain ⟨k1, v1⟩ := kv
    intro h
    rcases List.mem_cons.mp hmem with hhd | htl
    · obtain ⟨hk1, hv1⟩ := Prod.mk.injEq .. ▸ hhd
      subst hk1 hv1
      have hbs : (k == "$") = false := by simpa using hk
      cases hdesc : pd.lookup k with
      | none => simp [convertRepParams, hbs, hdesc] at h
      | some d => simp [convertRepParams, hbs, hdesc, hmemk, hbad] at h
    · by_cases h1 : k1 = "$"
      · have hbs1 : (k1 == "$") = true := by simpa using h1
        simp only [convertRepParams, hbs1, if_true] at h
        exact ih htl res h
      · have hbs1 : (k1 == "$") = false := by simpa using h1
        cases hdesc1 : pd.lookup k1 with
        | none => simp [convertRepParams, hbs1, hdesc1] at h
        | some d1 =>
          by_cases hm1 : k1 ∈ knownIntParams
          · cases hparse1 : goParseInt 16 v1 with
            | none => simp [convertRepParams, hbs1, hdesc1, hm1, hparse1] at h
            | some n1 =>
              cases hrest : convertRepParams pd rest with
              | error e => simp [convertRepParams, hbs1, hdesc1, hm1, hparse1, hrest] at h
              | ok r => exact ih htl r hrest
          · cases hrest : convertRepParams pd rest with
            | error e => simp [convertRepParams, hbs1, hdesc1, hm1, hrest] at h
            | ok r => exact ih htl r hrest

/-- When some non-`$` key has no descriptor and no allow-listed key has an
unparseable value, the conversion fails with the descriptor error naming a
missing key of the record. -/
theorem convertRepParams_missing (pd : List (String × ParameterDescriptor))
    (rep : List (String × String))
    (hmiss : ∃ k v, (k, v) ∈ rep ∧ k ≠ "$" ∧ pd.lookup k = none)
    (hints : ∀ k v, (k, v) ∈ rep → k ≠ "$" → knownIntParams.contains k = true →
      (pd.lookup k).isSome = true → (goParseInt 16 v).isSome = true) :
    ∃ k2, (∃ v2, (k2, v2) ∈ rep) ∧ k2 ≠ "$" ∧ pd.lookup k2 = none ∧
      convertRepParams pd rep = .error ("could not find descriptor for parameter " ++ k2) := by
  induction rep with
  | nil => obtain ⟨k, v, hm, _, _⟩ := hmiss; cases hm
  | cons kv rest ih =>
    obtain ⟨k1, v1⟩ := kv
    by_cases h1 : k1 = "$"
    · have hbs1 : (k1 == "$") = true := by simpa using h1
      have hmiss2 : ∃ k v, (k, v) ∈ rest ∧ k ≠ "$" ∧ pd.lookup k = none := by
        obtain ⟨k, v, hm, hk, hd⟩ := hmiss
        rcases List.mem_cons.mp hm with hhd | htl
        · obtain ⟨hka, _⟩ := Prod.mk.injEq .. ▸ hhd
          exact absurd (hka.trans h1) hk
        · exact ⟨k, v, htl, hk, hd⟩
      have hints2 : ∀ k v, (k, v) ∈ rest → k ≠ "$" → knownIntParams.contains k = true →
          (pd.lookup k).isSome = true → (goParseInt 16 v).isSome = true :=
        fun k v hm => hints k v (List.mem_cons_of_mem _ hm)
      obtain ⟨k2, ⟨v2, hm2⟩, hk2, hd2, heq2⟩ := ih hmiss2 hints2
      refine ⟨k2, ⟨v2, List.mem_cons_of_mem _ hm2⟩, hk2, hd2, ?_⟩
      simpa [convertRepParams, hbs1, if_true] using heq2
    · have hbs1 : (k1 == "$") = false := by simpa using h1
      cases hdesc1 : pd.lookup k1 with
      | none =>
        refine ⟨k1, ⟨v1, List.mem_cons_self _ _⟩, h1, hdesc1, ?_⟩
        simp [convertRepParams, hbs1, hdesc1]
      | some d1 =>
        have hmiss2 : ∃ k v, (k, v) ∈ rest ∧ k ≠ "$" ∧ pd.lookup k = none := by
          obtain ⟨k, v, hm, hk, hd⟩ := hmiss
          rcases List.mem_cons.mp hm with hhd | htl
          · obtain ⟨hka, _⟩ := Prod.mk.injEq .. ▸ hhd
            subst hka
            exact absurd hdesc1 (by simp [hd])
          · exact ⟨k, v, htl, hk, hd⟩
        have hints2 : ∀ k v, (k, v) ∈ rest → k ≠ "$" → knownIntParams.contains k = true →
            (pd.lookup k).isSome = true → (goParseInt 16 v).isSome = true :=
          fun k v hm => hints k v (List.mem_cons_of_mem _ hm)
        obtain ⟨k2, ⟨v2, hm2⟩, hk2, hd2, heq2⟩ := ih hmiss2 hints2
        refine ⟨k2, ⟨v2, List.mem_cons_of_mem _ hm2⟩, hk2, hd2, ?_⟩
        by_cases hm1 : k1 ∈ knownIntParams
        · have hps : (goParseInt 16 v1).isSome = true := by
            refine hints k1 v1 (List.mem_cons_self _ _) h1 (by simpa using hm1) ?_
            simp [hdesc1]
          obtain ⟨n1, hn1⟩ := Option.isSome_iff_exists.mp hps
          simp [convertRepParams, hbs1, hdesc1, hm1, hn1, heq2]
        · simp [convertRepParams, hbs1, hdesc1, hm1, heq2]

/-- Anatomy of a successful `convertRep`. -/
theorem convertRep_ok_inv (pd : List (String × ParameterDescriptor)) (pt : Int)
    (rep : List (String × String)) (f : Forecast)
    (h : convertRep pd pt rep = .ok f) :
    ∃ tok off ips sps, rep.lookup "$" = some tok ∧ decodeOffset tok = .ok off ∧
      convertRepParams pd rep = .ok (ips, sps) ∧ f = ⟨pt + off, ips, sps⟩ := by
  unfold convertRep at h
  split at h
  · exact Except.noConfusion h
  · rename_i tok htok
    split at h
    · exact Except.noConfusion h
    · rename_i off hoff
      split at h
      · exact Except.noConfusion h
      · rename_i r hps
        injection h with h2
        exact ⟨tok, off, r.1, r.2, htok, hoff, hps, h2.symm⟩

/-- `convertRep` cannot succeed when the parameter classification fails. -/
theorem convertRep_params_fail (pd : List (String × ParameterDescriptor)) (pt : Int)
    (rep : List (String × String))
    (hfail : ∀ res, convertRepParams pd rep ≠ .ok res) (f : Forecast) :
    convertRep pd pt rep ≠ .ok f := by
  intro h
  obtain ⟨tok, off, ips, sps, _, _, hps, _⟩ := convertRep_ok_inv pd pt rep f h
  exact hfail (ips, sps) hps

/-- A successful `convertReps` converts every member record. -/
theorem convertReps_ok_mem (pd : List (String × ParameterDescriptor)) (pt : Int)
    (reps : List (List (String × String))) (fs : List Forecast)
    (h : convertReps pd pt reps = .ok fs) (rep : List (String × String))
    (hmem : rep ∈ reps) :
    ∃ f, f ∈ fs ∧ convertRep pd pt rep = .ok f := by
  induction reps generalizing fs with
  | nil => cases hmem
  | cons r rest ih =>
    simp only [convertReps] at h
    split at h
    · exact Except.noConfusion h
    · rename_i f hr
      split at h
      · exact Except.noConfusion h
      · rename_i fs2 hrest
        injection h with h2
        subst h2
        rcases List.mem_cons.mp hmem with hhd | htl
        · exact ⟨f, List.mem_cons_self _ _, hhd ▸ hr⟩
        · obtain ⟨f2, hf2, hc2⟩ := ih fs2 hrest htl
          exact ⟨f2, List.mem_cons_of_mem _ hf2, hc2⟩

/-- Anatomy of a successful `convertPeriod`. -/
theorem convertPeriod_ok_inv (pd : List (String × ParameterDescriptor)) (pw : PeriodWire)
    (per : Period) (h : convertPeriod pd pw = .ok per) :
    ∃ gt, goTimeParse periodLayout pw.value = some gt ∧
      per.type = pw.type ∧ per.time = goTimeToUnix gt ∧
      convertReps pd (goTimeToUnix gt) pw.rep = .ok per.forecasts := by
  unfold convertPeriod at h
  split at h
  · exact Except.noConfusion h
  · rename_i gt hgt
    split at h
    · exact Except.noConfusion h
    · rename_i fs hfs
      injection h with h2
      subst h2
      exact ⟨gt, hgt, rfl, rfl, hfs⟩

/-- A successful `convertPeriodList` converts every member period. -/
theorem convertPeriodList_ok_mem (pd : List (String × ParameterDescriptor))
    (pws : List PeriodWire) (pers : List Period)
    (h : convertPeriodList pd pws = .ok pers) (pw : PeriodWire) (hmem : pw ∈ pws) :
    ∃ per, per ∈ pers ∧ convertPeriod pd pw = .ok per := by
  induction pws generalizing pers with
  | nil => cases hmem
  | cons p rest ih =>
    simp only [convertPeriodList] at h
    split at h
    · exact Except.noConfusion h
    · rename_i per hp
      split at h
      · exact Except.noConfusion h
      · rename_i pers2 hrest
        injection h with h2
        subst h2
        rcases List.mem_cons.mp hmem with hhd | htl
        · exact ⟨per, List.mem_cons_self _ _, hhd ▸ hp⟩
        · obtain ⟨p2, hp2, hc2⟩ := ih pers2 hrest htl
          exact ⟨p2, List.mem_cons_of_mem _ hp2, hc2⟩

/-- A successful `convertLocation` converts all of its periods. -/
theorem convertLocation_ok_periods (pd : List (String × ParameterDescriptor))
    (typeName : String) (startTime : Int) (entry : LocationEntryWire) (rep : SiteRep)
    (h : convertLocation pd typeName startTime entry = .ok rep) :
    convertPeriodList pd entry.period = .ok rep.location.period := by
  unfold convertLocation at h
  split at h
  · exact Except.noConfusion h
  · rename_i periods hp
    split at h
    · exact Except.noConfusion h
    · rename_i id hid
      split at h
      · exact Except.noConfusion h
      · rename_i lat hlat
        split at h
        · exact Except.noConfusion h
        · rename_i lon hlon
          split at h
          · exact Except.noConfusion h
          · rename_i elevation helev
            injection h with h2
            subst h2
            exact hp

/-- The three decoding cases of the `$` marker. -/
theorem decodeOffset_cases (tok : String) (off : Int) (h : decodeOffset tok = .ok off) :
    (tok = "Day" ∧ off = 0) ∨ (tok = "Night" ∧ off = 86399) ∨
    (tok ≠ "Day" ∧ tok ≠ "Night" ∧ ∃ m, goParseInt 16 tok = some m ∧ off = m * 60) := by
  by_cases hd : tok = "Day"
  · subst hd
    have h0 : decodeOffset "Day" = (.ok 0 : Except String Int) := rfl
    injection h0.symm.trans h with h2
    exact Or.inl ⟨rfl, h2.symm⟩
  · by_cases hn : tok = "Night"
    · subst hn
      have h0 : decodeOffset "Night" = (.ok 86399 : Except String Int) := rfl
      injection h0.symm.trans h with h2
      exact Or.inr (Or.inl ⟨rfl, h2.symm⟩)
    · have hbd : (tok == "Day") = false := by simpa using hd
      have hbn : (tok == "Night") = false := by simpa using hn
      unfold decodeOffset at h
      rw [hbd, hbn] at h
      simp only [Bool.false_eq_true, if_false] at h
      split at h
      · exact Except.noConfusion h
      · rename_i m hm
        injection h with h2
        exact Or.inr (Or.inr ⟨hd, hn, m, hm, h2.symm⟩)

/-- Reading a year, month or day component never touches the time-of-day or
zone fields. -/
theorem parseStd_date_preserves (std : StdChunk) (st st' : GoTime) (v v' : List Char)
    (hstd : std = .longYear ∨ std = .zeroMonth ∨ std = .zeroDay)
    (h : parseStd std st v = some (st', v')) :
    st'.hour = st.hour ∧ st'.minute = st.minute ∧ st'.second = st.second ∧
      st'.zoneOffset = st.zoneOffset := by
  rcases hstd with h1 | h1 | h1 <;> subst h1 <;>
    simp only [parseStd, Option.map_eq_some'] at h <;>
    obtain ⟨a, _, ha⟩ := h <;>
    obtain ⟨hst, _⟩ := Prod.mk.injEq .. ▸ ha <;>
    subst hst <;> exact ⟨rfl, rfl, rfl, rfl⟩

/-- Validation returns the parsed components unchanged. -/
theorem finalizeGoTime_eq (st gt : GoTime) (h : finalizeGoTime st = some gt) : gt = st := by
  unfold finalizeGoTime at h
  split at h
  · exact Option.noConfusion h
  · split at h
    · exact Option.noConfusion h
    · injection h with h2
      exact h2.symm

/-- Whatever parses against the period layout `"2006-01-02Z"` is a midnight
UTC instant: the layout carries no hour, minute, second or zone chunk. -/
theorem goTimeParse_period_midnight (v : String) (gt : GoTime)
    (h : goTimeParse periodLayout v = some gt) :
    gt.hour = 0 ∧ gt.minute = 0 ∧ gt.second = 0 ∧ gt.zoneOffset = none := by
  have hc : layoutChunks periodLayout.toList =
      ([([], .longYear), (['-'], .zeroMonth), (['-'], .zeroDay)], ['Z']) := by decide
  unfold goTimeParse at h
  rw [hc] at h
  simp only [runChunks, stripLit] at h
  split at h
  · exact Option.noConfusion h
  · rename_i st rest hrun
    split at h
    · have hfin := finalizeGoTime_eq _ _ h
      subst hfin
      split at hrun
      · exact Option.noConfusion hrun
      · rename_i r1 h1
        split at hrun
        · exact Option.noConfusion hrun
        · rename_i v2 h2
          split at hrun
          · exact Option.noConfusion hrun
          · rename_i r2 h3
            split at hrun
            · exact Option.noConfusion hrun
            · rename_i v4 h4
              split at hrun
              · exact Option.noConfusion hrun
              · rename_i r3 h5
                rw [Option.map_eq_some'] at hrun
                obtain ⟨v6, hv6, hpair⟩ := hrun
                obtain ⟨hst, hrest⟩ := Prod.mk.injEq .. ▸ hpair
                obtain ⟨p1h, p1m, p1s, p1z⟩ :=
                  parseStd_date_preserves .longYear initGoTime r1.1 v.toList r1.2
                    (Or.inl rfl) h1
                obtain ⟨p2h, p2m, p2s, p2z⟩ :=
                  parseStd_date_preserves .zeroMonth r1.1 r2.1 v2 r2.2
                    (Or.inr (Or.inl rfl)) h3
                obtain ⟨p3h, p3m, p3s, p3z⟩ :=
                  parseStd_date_preserves .zeroDay r2.1 r3.1 v4 r3.2
                    (Or.inr (Or.inr rfl)) h5
                refine ⟨?_, ?_, ?_, ?_⟩
                · rw [← hst, p3h, p2h, p1h]; rfl
                · rw [← hst, p3m, p2m, p1m]; rfl
                · rw [← hst, p3s, p2s, p1s]; rfl
                · rw [← hst, p3z, p2z, p1z]; rfl
    · exact Option.noConfusion h

/-- A member key of an association list is found by `lookup`. -/
theorem lookup_isSome_of_mem {β : Type} (k : String) (v : β) (l : List (String × β))
    (hmem : (k, v) ∈ l) : ∃ v2, l.lookup k = some v2 := by
  induction l with
  | nil => cases hmem
  | cons kv rest ih =>
    obtain ⟨k1, v1⟩ := kv
    by_cases hk : k = k1
    · subst hk
      exact ⟨v1, by simp [List.lookup]⟩
    · have hbk : (k == k1) = false := by simpa using hk
      rcases List.mem_cons.mp hmem with hhd | htl
      · obtain ⟨h1, _⟩ := Prod.mk.injEq .. ▸ hhd
        exact absurd h1 hk
      · obtain ⟨v2, hv2⟩ := ih htl
        exact ⟨v2, by simp [List.lookup, hbk, hv2]⟩

/-! ### Claim theorems -/

/-- Claim C1: for every Rep record converted inside `convertLocation` (via
`convertPeriod`), the Forecast's absolute time equals the enclosing period's
date — a midnight instant, parsed against `"2006-01-02Z"` — plus the offset
decoded from the record's `$` value: token `"Day"` yields the period date at
00:00:00, token `"Night"` yields the period date plus 86399 seconds
(23:59:59), and any other token is parsed as an integer count of minutes
since midnight and added as that many minutes. -/
theorem c1_forecast_time_offset (pd : List (String × ParameterDescriptor))
    (pw : PeriodWire) (per : Period) (h : convertPeriod pd pw = .ok per) :
    (∃ gt, goTimeParse periodLayout pw.value = some gt ∧ gt.hour = 0 ∧ gt.minute = 0 ∧
      gt.second = 0 ∧ gt.zoneOffset = none ∧ per.time = goTimeToUnix gt) ∧
    (∀ rep, rep ∈ pw.rep → ∃ f, f ∈ per.forecasts ∧ convertRep pd per.time rep = .ok f ∧
      ∃ tok, rep.lookup "$" = some tok ∧
        (tok = "Day" → f.time = per.time) ∧
        (tok = "Night" → f.time = per.time + 86399) ∧
        (tok ≠ "Day" → tok ≠ "Night" →
          ∃ m, goParseInt 16 tok = some m ∧ f.time = per.time + m * 60)) := by
  obtain ⟨gt, hgt, htype, htime, hreps⟩ := convertPeriod_ok_inv pd pw per h
  obtain ⟨mh, mm, ms, mz⟩ := goTimeParse_period_midnight pw.value gt hgt
  rw [← htime] at hreps
  refine ⟨⟨gt, hgt, mh, mm, ms, mz, htime⟩, ?_⟩
  intro rep hmem
  obtain ⟨f, hf, hcr⟩ := convertReps_ok_mem pd per.time pw.rep per.forecasts hreps rep hmem
  obtain ⟨tok, off, ips, sps, htok, hoff, hps, hfe⟩ := convertRep_ok_inv pd per.time rep f hcr
  refine ⟨f, hf, hcr, tok, htok, ?_, ?_, ?_⟩
  · intro hd
    rcases decodeOffset_cases tok off hoff with ⟨_, h0⟩ | ⟨hn, _⟩ | ⟨hnd, _, _⟩
    · simp [hfe, h0]
    · rw [hd] at hn
      exact absurd hn (by decide)
    · exact absurd hd hnd
  · intro hn2
    rcases decodeOffset_cases tok off hoff with ⟨hd, _⟩ | ⟨_, h86⟩ | ⟨_, hnn, _⟩
    · rw [hn2] at hd
      exact absurd hd (by decide)
    · simp [hfe, h86]
    · exact absurd hn2 hnn
  · intro hnd hnn
    rcases decodeOffset_cases tok off hoff with ⟨hd, _⟩ | ⟨hn, _⟩ | ⟨_, _, m, hm, hoff2⟩
    · exact absurd hd hnd
    · exact absurd hn hnn
    · exact ⟨m, hm, by simp [hfe, hoff2]⟩

/-- Concrete period side-table for the C1 witness. -/
def c1pd : List (String × ParameterDescriptor) := [("T", ⟨"T", "C", "Temperature"⟩)]

/-- Concrete wire period for the C1 witness. -/
def c1pw : PeriodWire := ⟨"Day", "2012-11-21Z", [[("$", "180"), ("T", "11")]]⟩

/-- The converted period of the C1 witness: 2012-11-21T00:00:00Z is Unix
1353456000, and the 180-minute offset puts the forecast at 1353466800. -/
def c1per : Period :=
  ⟨"Day", 1353456000, [⟨1353466800, [("T", ⟨⟨"T", "C", "Temperature"⟩, 11⟩)], []⟩]⟩

theorem c1_forecast_time_offset_witness :
    convertPeriod c1pd c1pw = .ok c1per ∧
    ((∃ gt, goTimeParse periodLayout c1pw.value = some gt ∧ gt.hour = 0 ∧ gt.minute = 0 ∧
      gt.second = 0 ∧ gt.zoneOffset = none ∧ c1per.time = goTimeToUnix gt) ∧
    (∀ rep, rep ∈ c1pw.rep → ∃ f, f ∈ c1per.forecasts ∧
      convertRep c1pd c1per.time rep = .ok f ∧
      ∃ tok, rep.lookup "$" = some tok ∧
        (tok = "Day" → f.time = c1per.time) ∧
        (tok = "Night" → f.time = c1per.time + 86399) ∧
        (tok ≠ "Day" → tok ≠ "Night" →
          ∃ m, goParseInt 16 tok = some m ∧ f.time = c1per.time + m * 60))) := by
  have h : convertPeriod c1pd c1pw = .ok c1per := rfl
  exact ⟨h, c1_forecast_time_offset c1pd c1pw c1per h⟩

/-- Claim C2: for every non-`$` key that a Rep record maps to a value, if the
key is on the fixed known-integer allow-list then the Forecast's integer
mapping holds its parsed integer and the key is absent from the string
mapping; if the key is off the allow-list, the raw string is stored verbatim
in the string mapping.  Classification depends only on the key, never on the
shape of the value. -/
theorem c2_param_classification (pd : List (String × ParameterDescriptor))
    (rep : List (String × String)) (ips : List (String × IntParameterValue))
    (sps : List (String × StringParameterValue))
    (h : convertRepParams pd rep = .ok (ips, sps)) (k v : String)
    (hlk : rep.lookup k = some v) (hk : k ≠ "$") :
    (knownIntParams.contains k = true →
      ∃ d n, pd.lookup k = some d ∧ goParseInt 16 v = some n ∧
        ips.lookup k = some ⟨d, n⟩ ∧ sps.lookup k = none) ∧
    (knownIntParams.contains k = false →
      ∃ d, pd.lookup k = some d ∧ sps.lookup k = some ⟨d, v⟩ ∧
        ips.lookup k = none) := by
  have hcl := convertRepParams_classify pd rep ips sps h k
  constructor
  · intro hcont
    obtain ⟨d, n, hd, hn, hip⟩ := convertRepParams_int_value pd rep ips sps h k v hlk hk hcont
    refine ⟨d, n, hd, hn, hip, ?_⟩
    cases hsp : sps.lookup k with
    | none => rfl
    | some x =>
      exact Bool.noConfusion (hcont.symm.trans (hcl.2 (by simp [hsp])))
  · intro hcont
    obtain ⟨d, hd, hsp⟩ := convertRepParams_string_value pd rep ips sps h k v hlk hk hcont
    refine ⟨d, hd, hsp, ?_⟩
    cases hip : ips.lookup k with
    | none => rfl
    | some x =>
      exact Bool.noConfusion ((hcl.1 (by simp [hip])).symm.trans hcont)

/-- Concrete side-table for the C2 witness: a known-integer code `"T"` and a
string code `"V"`. -/
def c2pd : List (String × ParameterDescriptor) :=
  [("T", ⟨"T", "C", "Temperature"⟩), ("V", ⟨"V", "", "Visibility"⟩)]

/-- Concrete Rep record for the C2 witness. -/
def c2rep : List (String × String) := [("$", "Day"), ("T", "11"), ("V", "GO")]

/-- Integer mapping produced from `c2rep`. -/
def c2ips : List (String × IntParameterValue) := [("T", ⟨⟨"T", "C", "Temperature"⟩, 11⟩)]

/-- String mapping produced from `c2rep`. -/
def c2sps : List (String × StringParameterValue) := [("V", ⟨⟨"V", "", "Visibility"⟩, "GO"⟩)]

theorem c2_param_classification_witness :
    convertRepParams c2pd c2rep = .ok (c2ips, c2sps) ∧
    c2rep.lookup "T" = some "11" ∧
    ((knownIntParams.contains "T" = true →
      ∃ d n, c2pd.lookup "T" = some d ∧ goParseInt 16 "11" = some n ∧
        c2ips.lookup "T" = some ⟨d, n⟩ ∧ c2sps.lookup "T" = none) ∧
    (knownIntParams.contains "T" = false →
      ∃ d, c2pd.lookup "T" = some d ∧ c2sps.lookup "T" = some ⟨d, "11"⟩ ∧
        c2ips.lookup "T" = none)) := by
  have h : convertRepParams c2pd c2rep = .ok (c2ips, c2sps) := rfl
  exact ⟨h, rfl, c2_param_classification c2pd c2rep c2ips c2sps h "T" "11" rfl (by decide)⟩

/-- Claim C5: when conversion succeeds, every non-`$` key of the record
appears in exactly one of the two mappings — never both, never neither; and a
non-`$` key with no descriptor in the `Param` side-table makes the whole
conversion fail, with the error naming a descriptor-less key of the record
(provided no allow-listed value fails integer parsing first, which would
surface its own error instead). -/
theorem c5_partition_invariant (pd : List (String × ParameterDescriptor))
    (rep : List (String × String)) :
    (∀ ips sps, convertRepParams pd rep = .ok (ips, sps) →
      ∀ k v, (k, v) ∈ rep → k ≠ "$" →
        (((ips.lookup k).isSome = true ∧ (sps.lookup k).isSome = false) ∨
         ((ips.lookup k).isSome = false ∧ (sps.lookup k).isSome = true))) ∧
    (∀ k v, (k, v) ∈ rep → k ≠ "$" → pd.lookup k = none →
      (∀ res, convertRepParams pd rep ≠ .ok res) ∧
      ((∀ k2 v2, (k2, v2) ∈ rep → k2 ≠ "$" → knownIntParams.contains k2 = true →
          (pd.lookup k2).isSome = true → (goParseInt 16 v2).isSome = true) →
        ∃ k2, (∃ v2, (k2, v2) ∈ rep) ∧ k2 ≠ "$" ∧ pd.lookup k2 = none ∧
          convertRepParams pd rep =
            .error ("could not find descriptor for parameter " ++ k2))) := by
  constructor
  · intro ips sps h k v hmem hk
    have hcl := convertRepParams_classify pd rep ips sps h k
    rcases convertRepParams_covers pd rep ips sps h k v hmem hk with hi | hs
    · left
      refine ⟨hi, ?_⟩
      cases hsp : (sps.lookup k).isSome with
      | false => rfl
      | true => exact Bool.noConfusion ((hcl.1 hi).symm.trans (hcl.2 hsp))
    · by_cases hi2 : (ips.lookup k).isSome = true
      · left
        refine ⟨hi2, ?_⟩
        cases hsp : (sps.lookup k).isSome with
        | false => rfl
        | true => exact Bool.noConfusion ((hcl.1 hi2).symm.trans (hcl.2 hsp))
      · right
        exact ⟨Bool.eq_false_iff.mpr hi2, hs⟩
  · intro k v hmem hk hdnone
    constructor
    · intro res h
      obtain ⟨v2, hv2⟩ := lookup_isSome_of_mem k v rep hmem
      cases hcont : knownIntParams.contains k with
      | true =>
        obtain ⟨d, _, hd, _, _⟩ :=
          convertRepParams_int_value pd rep res.1 res.2 h k v2 hv2 hk hcont
        exact Option.noConfusion (hdnone.symm.trans hd)
      | false =>
        obtain ⟨d, hd, _⟩ :=
          convertRepParams_string_value pd rep res.1 res.2 h k v2 hv2 hk hcont
        exact Option.noConfusion (hdnone.symm.trans hd)
    · intro hints
      exact convertRepParams_missing pd rep ⟨k, v, hmem, hk, hdnone⟩ hints

/-- Side-table for the C5 witness: only `"T"` is known. -/
def c5pd : List (String × ParameterDescriptor) := [("T", ⟨"T", "C", "Temperature"⟩)]

/-- Record for the C5 witness: the code `"Zz"` has no descriptor. -/
def c5rep : List (String × String) := [("$", "Day"), ("T", "11"), ("Zz", "x")]

theorem c5_partition_invariant_witness :
    ((∀ ips sps, convertRepParams c5pd [("$", "Day"), ("T", "11")] = .ok (ips, sps) →
      ∀ k v, (k, v) ∈ [("$", "Day"), ("T", "11")] → k ≠ "$" →
        (((ips.lookup k).isSome = true ∧ (sps.lookup k).isSome = false) ∨
         ((ips.lookup k).isSome = false ∧ (sps.lookup k).isSome = true)))) ∧
    (("Zz", "x") ∈ c5rep ∧ c5pd.lookup "Zz" = none ∧
      (∀ res, convertRepParams c5pd c5rep ≠ .ok res) ∧
      convertRepParams c5pd c5rep =
        .error ("could not find descriptor for parameter " ++ "Zz")) := by
  refine ⟨(c5_partition_invariant c5pd [("$", "Day"), ("T", "11")]).1, ?_, rfl, ?_, rfl⟩
  · decide
  · exact ((c5_partition_invariant c5pd c5rep).2 "Zz" "x" (by decide) (by decide) rfl).1

/-- Claim C6: a Rep record holding an allow-listed key whose value does not
parse as a 16-bit integer (unparseable text or out-of-range number) makes the
whole `convertLocation` conversion fail — the value is never stored as a
string parameter instead. -/
theorem c6_int_parse_hard_error (pd : List (String × ParameterDescriptor))
    (typeName : String) (startTime : Int) (entry : LocationEntryWire)
    (pw : PeriodWire) (hpw : pw ∈ entry.period) (rep : List (String × String))
    (hrep : rep ∈ pw.rep) (k v : String) (hmem : (k, v) ∈ rep) (hk : k ≠ "$")
    (hcont : knownIntParams.contains k = true) (hbad : goParseInt 16 v = none) :
    (∀ r, convertLocation pd typeName startTime entry ≠ .ok r) ∧
    (∀ ips sps, convertRepParams pd rep ≠ .ok (ips, sps)) := by
  have hfail : ∀ res, convertRepParams pd rep ≠ .ok res :=
    fun res => convertRepParams_intFail pd rep k v hmem hk hcont hbad res
  constructor
  · intro r h
    have hpl := convertLocation_ok_periods pd typeName startTime entry r h
    obtain ⟨per, hper, hcp⟩ :=
      convertPeriodList_ok_mem pd entry.period r.location.period hpl pw hpw
    obtain ⟨gt, hgt, _, _, hreps⟩ := convertPeriod_ok_inv pd pw per hcp
    obtain ⟨f, hf, hcr⟩ :=
      convertReps_ok_mem pd (goTimeToUnix gt) pw.rep per.forecasts hreps rep hrep
    exact convertRep_params_fail pd (goTimeToUnix gt) rep hfail f hcr
  · intro ips sps h
    exact hfail (ips, sps) h

/-- Side-table for the C6 witness. -/
def c6pd : List (String × ParameterDescriptor) := [("T", ⟨"T", "C", "Temperature"⟩)]

/-- Wire period for the C6 witness: `"T"` carries 40000, outside the 16-bit
range accepted by `strconv.ParseInt(_, 10, 16)`. -/
def c6pw : PeriodWire := ⟨"Day", "2012-11-21Z", [[("$", "Day"), ("T", "40000")]]⟩

/-- Wire location for the C6 witness. -/
def c6entry : LocationEntryWire := ⟨"310069", "50.7", "-3.5", "Exeter", "England", "EUROPE", "", [c6pw]⟩

theorem c6_int_parse_hard_error_witness :
    goParseInt 16 "40000" = none ∧
    (∀ r, convertLocation c6pd "Forecast" 0 c6entry ≠ .ok r) ∧
    (∀ ips sps, convertRepParams c6pd [("$", "Day"), ("T", "40000")] ≠ .ok (ips, sps)) := by
  have h := c6_int_parse_hard_error c6pd "Forecast" 0 c6entry c6pw (by decide)
    [("$", "Day"), ("T", "40000")] (by decide) "T" "40000" (by decide) (by decide)
    (by decide) (by decide)
  exact ⟨by decide, h.1, h.2⟩

/-- Wire location whose elevation is the unparseable string `"abc"` and whose
other fields are all valid. -/
def c3entry : LocationEntryWire := ⟨"1", "1.5", "2.5", "n", "c", "ct", "abc", []⟩

/-- Claim C3 counterexample: `convertLocation` on a location whose elevation
is non-empty but unparseable returns a hard error — not elevation 0 with a
warning — refuting the claim that both conversion paths swallow elevation
parse failures. -/
theorem c3_counterexample :
    goParseFloat c3entry.elevation = none ∧ c3entry.elevation ≠ "" ∧
    convertLocation [] "Forecast" 0 c3entry = .error ("failed to parse elevation") :=
  ⟨rfl, by decide, rfl⟩

/-- Claim C3 (amended): elevation defaulting differs between the two paths.
In the sitelist conversion an empty elevation yields 0 with no error and a
non-empty unparseable elevation yields 0 with only a non-fatal warning —
elevation parse failures never block a sitelist entry whose other fields
parse.  In `convertLocation` an empty elevation also yields 0 with no error,
but a non-empty unparseable elevation is a hard error for the whole
conversion; the swallow-with-warning policy applies only to the sitelist
path. -/
theorem c3_elevation_policy :
    (∀ w s warns, convertSite w = .ok (s, warns) → w.elevation = "" →
      s.elevation = 0 ∧ warns = []) ∧
    (∀ w s warns, convertSite w = .ok (s, warns) → w.elevation ≠ "" →
      goParseFloat w.elevation = none →
      s.elevation = 0 ∧ warns = [("failed to parse elevation " ++ w.elevation)]) ∧
    (∀ w : SiteWire, (goParseFloat w.latitude).isSome = true →
      (goParseFloat w.longitude).isSome = true → (goParseInt 64 w.id).isSome = true →
      ∃ s warns, convertSite w = .ok (s, warns)) ∧
    (∀ pd typeName startTime entry rep,
      convertLocation pd typeName startTime entry = .ok rep →
      entry.elevation = "" → rep.location.elevation = 0) ∧
    (∀ pd typeName startTime entry, entry.elevation ≠ "" →
      goParseFloat entry.elevation = none →
      ∀ rep, convertLocation pd typeName startTime entry ≠ .ok rep) := by
  refine ⟨?_, ?_, ?_, ?_, ?_⟩
  · intro w s warns h hemp
    have hbe : (w.elevation == "") = true := by simpa using hemp
    unfold convertSite at h
    split at h
    · exact Except.noConfusion h
    · split at h
      · exact Except.noConfusion h
      · split at h
        · exact Except.noConfusion h
        · rw [hbe] at h
          simp only [if_true] at h
          injection h with h2
          obtain ⟨hs, hw⟩ := Prod.mk.injEq .. ▸ h2
          subst hs hw
          exact ⟨rfl, rfl⟩
  · intro w s warns h hne hbad
    have hbe : (w.elevation == "") = false := by simpa using hne
    unfold convertSite at h
    split at h
    · exact Except.noConfusion h
    · split at h
      · exact Except.noConfusion h
      · split at h
        · exact Except.noConfusion h
        · rw [hbe] at h
          simp only [Bool.false_eq_true, if_false, hbad] at h
          injection h with h2
          obtain ⟨hs, hw⟩ := Prod.mk.injEq .. ▸ h2
          subst hs hw
          exact ⟨rfl, rfl⟩
  · intro w hlat hlon hid
    obtain ⟨lat, hlat2⟩ := Option.isSome_iff_exists.mp hlat
    obtain ⟨lon, hlon2⟩ := Option.isSome_iff_exists.mp hlon
    obtain ⟨id, hid2⟩ := Option.isSome_iff_exists.mp hid
    unfold convertSite
    rw [hlat2, hlon2, hid2]
    by_cases hemp : w.elevation == ""
    · rw [hemp]
      simp only [if_true]
      exact ⟨_, _, rfl⟩
    · rw [Bool.eq_false_iff.mpr hemp]
      simp only [Bool.false_eq_true, if_false]
      cases helev : goParseFloat w.elevation with
      | none => exact ⟨_, _, rfl⟩
      | some e => exact ⟨_, _, rfl⟩
  · intro pd typeName startTime entry rep h hemp
    have hbe : (entry.elevation == "") = true := by simpa using hemp
    unfold convertLocation at h
    split at h
    · exact Except.noConfusion h
    · split at h
      · exact Except.noConfusion h
      · split at h
        · exact Except.noConfusion h
        · split at h
          · exact Except.noConfusion h
          · rw [hbe] at h
            simp only [if_true] at h
            injection h with h2
            subst h2
            rfl
  · intro pd typeName startTime entry hne hbad rep h
    have hbe : (entry.elevation == "") = false := by simpa using hne
    unfold convertLocation at h
    split at h
    · exact Except.noConfusion h
    · split at h
      · exact Except.noConfusion h
      · split at h
        · exact Except.noConfusion h
        · split at h
          · exact Except.noConfusion h
          · rw [hbe] at h
            simp only [Bool.false_eq_true, if_false, hbad] at h
            exact Except.noConfusion h

/-- Wire sitelist entry with unparseable elevation for the C3 witness. -/
def c3site : SiteWire := ⟨"abc", "310069", "50.7179", "-3.5327", "Exeter", "sw", "Devon"⟩

/-- The converted witness site: elevation defaults to 0, everything else is
parsed. -/
def c3siteConverted : Site :=
  ⟨310069, mkRat 507179 10000, mkRat (-35327) 10000, "Exeter", 0, "sw", "Devon"⟩

theorem c3_elevation_policy_witness :
    convertSite c3site = .ok (c3siteConverted, [("failed to parse elevation " ++ "abc")]) ∧
    (c3siteConverted.elevation = 0 ∧
      [("failed to parse elevation " ++ "abc")] =
        [("failed to parse elevation " ++ c3site.elevation)]) ∧
    (∀ rep, convertLocation [] "Forecast" 0 c3entry ≠ .ok rep) := by
  have h : convertSite c3site =
      .ok (c3siteConverted, [("failed to parse elevation " ++ "abc")]) := rfl
  refine ⟨h, ?_, ?_⟩
  · exact (c3_elevation_policy.2.1 c3site c3siteConverted _ h (by decide) rfl)
  · exact c3_elevation_policy.2.2.2.2 [] "Forecast" 0 c3entry (by decide) rfl

/-- Claim C7: a decoded single-location forecast response whose location id
is empty makes `FiveDayForecast` return the no-data sentinel — nil result
and nil error, distinct from both a value and an error. -/
theorem c7_empty_id_sentinel (w : SiteRepSingleWire) (h : w.location.id = "") :
    fiveDayForecastConvert w = (none, none) := by
  unfold fiveDayForecastConvert
  have hb : (w.location.id == "") = true := by simpa using h
  rw [hb]
  simp only [if_true]

/-- Decoded empty-id response for the C7 witness. -/
def c7wire : SiteRepSingleWire :=
  ⟨[], "2012-11-21T15:00:00Z", "Forecast", ⟨"", "50.7", "-3.5", "", "", "", "", []⟩⟩

theorem c7_empty_id_sentinel_witness :
    c7wire.location.id = "" ∧ fiveDayForecastConvert c7wire = (none, none) :=
  ⟨rfl, c7_empty_id_sentinel c7wire rfl⟩

/-- Claim C4 (code bug): `UkExtremesCapabilities` does parse its fields
against the fixed `time.DateOnly` / `time.RFC3339` layouts, embedding a
deviating string in the error — but `RegionalForecastCapabilities` passes the
decoded `issuedAt` field as the LAYOUT and the `RFC3339` constant as the
value (`txt.go` line 245, arguments swapped), so even the perfectly
well-formed RFC3339 timestamp `"2012-11-21T15:00:00Z"` — which the intended
call parses — makes the call fail. -/
theorem c4_issue_timestamp_parsing :
    goTimeParse rfc3339Layout "2012-11-21T15:00:00Z" =
      some ⟨2012, 11, 21, 15, 0, 0, some 0⟩ ∧
    goTimeParse "2012-11-21T15:00:00Z" rfc3339Layout = none ∧
    regionalForecastCapabilitiesConvert "2012-11-21T15:00:00Z" =
      (none, some ("failed to parse issued at time")) ∧
    ukExtremesCapabilitiesConvert "2024-01-02" "2012-11-21T15:00:00Z" =
      (some ⟨1704153600, 1353510000⟩, none) ∧
    ukExtremesCapabilitiesConvert "2024-01-02" "not-a-time" =
      (none, some ("failed to parse date not-a-time for issued at date")) ∧
    ukExtremesCapabilitiesConvert "21/11/2012" "2012-11-21T15:00:00Z" =
      (none, some ("failed to parse date 21/11/2012 for extreme date")) := by
  refine ⟨by decide, by decide, by decide, by decide, by decide, by decide⟩

/-- Claim C8: the post-decode pipelines behind the public calls are atomic.
A single-location forecast yields exactly one of: a fully built `SiteRep`
with no error, no value with an error, or — precisely when the wire location
id is empty — the no-data sentinel (no value, no error).  The UK-extremes
pipeline yields a value exactly when it yields no error, with no fourth
state and no partial result.  (Transport and JSON-decode failures return the
nil-value/error pair directly in the source, upstream of these pipelines.) -/
theorem c8_atomic_results :
    (∀ w : SiteRepSingleWire,
      (∃ r, fiveDayForecastConvert w = (some r, none)) ∨
      (∃ e, fiveDayForecastConvert w = (none, some e)) ∨
      (w.location.id = "" ∧ fiveDayForecastConvert w = (none, none))) ∧
    (∀ w : LatestExtremesWire,
      (∃ r, ukExtremesLatestConvert w = (some r, none)) ∨
      (∃ e, ukExtremesLatestConvert w = (none, some e))) := by
  constructor
  · intro w
    by_cases hid : w.location.id == ""
    · exact Or.inr (Or.inr ⟨by simpa using hid, by unfold fiveDayForecastConvert; rw [hid]; rfl⟩)
    · have hbf : (w.location.id == "") = false := Bool.eq_false_iff.mpr hid
      cases hstart : goTimeParse rfc3339Layout w.dataDate with
      | none =>
        refine Or.inr (Or.inl ⟨("failed to parse period start time " ++ w.dataDate), ?_⟩)
        simp [fiveDayForecastConvert, hbf, hstart]
      | some startTime =>
        cases hconv : convertLocation (buildParamDefs w.params) w.typeName
            (goTimeToUnix startTime) w.location with
        | error e =>
          refine Or.inr (Or.inl ⟨e, ?_⟩)
          simp [fiveDayForecastConvert, hbf, hstart, hconv]
        | ok r =>
          refine Or.inl ⟨r, ?_⟩
          simp [fiveDayForecastConvert, hbf, hstart, hconv]
  · intro w
    unfold ukExtremesLatestConvert
    cases hr : convertRegionList w.regions with
    | error e => exact Or.inr ⟨e, rfl⟩
    | ok rs =>
      cases hed : goTimeParse dateOnlyLayout w.extremeDate with
      | none => exact Or.inr ⟨_, rfl⟩
      | some ed =>
        cases hia : goTimeParse rfc3339Layout w.issuedAt with
        | none => exact Or.inr ⟨_, rfl⟩
        | some ia => exact Or.inl ⟨_, rfl⟩

/-- Claim C9: `fetch` never inspects the HTTP status code.  Two responses
with the same body-read outcome produce identical results whatever their
status codes, and a non-2xx status with a readable body is returned to the
caller as bytes with no error. -/
theorem c9_fetch_ignores_status (target key : String) (params : List (String × String))
    (r1 r2 : HttpResponse) (h : r1.body = r2.body) :
    fetch target key params (fun _ => .response r1) =
      fetch target key params (fun _ => .response r2) ∧
    (∀ status body, fetch target key params (fun _ => .response ⟨status, .ok body⟩) =
      (some body, target, none)) := by
  constructor
  · obtain ⟨s1, b1⟩ := r1
    obtain ⟨s2, b2⟩ := r2
    have h2 : b1 = b2 := h
    subst h2
    rfl
  · intro status body
    rfl

theorem c9_fetch_ignores_status_witness :
    (HttpResponse.mk 404 (.ok "body")).body = (HttpResponse.mk 200 (.ok "body")).body ∧
    fetch "http://t" "k" [] (fun _ => .response ⟨404, .ok "body"⟩) =
      fetch "http://t" "k" [] (fun _ => .response ⟨200, .ok "body"⟩) ∧
    fetch "http://t" "k" [] (fun _ => .response ⟨404, .ok "body"⟩) =
      (some "body", "http://t", none) := by
  have h := c9_fetch_ignores_status "http://t" "k" [] ⟨404, .ok "body"⟩ ⟨200, .ok "body"⟩ rfl
  exact ⟨rfl, h.1, h.2 404 "body"⟩

/-- Claim C10: the credential key is concatenated into the URL verbatim while
every optional query parameter is percent-escaped on both sides, so a
credential holding URL-reserved characters changes the query-string
structure: the credential `"a&res=daily"` produces the very same URL as the
credential `"a"` with an extra `res=daily` parameter, and would have been
escaped had it gone through `QueryEscape`. -/
theorem c10_key_verbatim_params_escaped :
    (∀ target key, buildQuery target key [] = target ++ "?key=" ++ key) ∧
    (∀ target key k v, buildQuery target key [(k, v)] =
      target ++ "?key=" ++ key ++ "&" ++ queryEscape k ++ "=" ++ queryEscape v) ∧
    queryEscape "a&res=daily" ≠ "a&res=daily" ∧
    buildQuery "http://x" "a&res=daily" [] = buildQuery "http://x" "a" [("res", "daily")] := by
  exact ⟨fun t k => rfl, fun t key k v => rfl, by decide, by decide⟩

end Datapoint
